import Mathlib

/-!
Verification of the endpoint-record reconciliation engine of the
external-dns-provider-mikrotik repository, shallowly embedded from
internal/mikrotik/client.go.  Network interaction is modelled by an
environment (oracle) giving the response of each successive remote call;
the functions below mirror the Go control flow over that oracle and also
return the trace of remote calls they issue.
-/

set_option maxRecDepth 4000
set_option linter.unusedVariables false

namespace Mikrotik

/-- The flat DNS record stored by the router (Go struct DNSRecord; its file is
not under src/, but every field below is read or written by client.go or the
tests, and the spec lists the same fields for RemoteRecord).  All fields are
strings, as in the JSON representation. -/
structure DNSRecord where
  id : String := ""
  name : String := ""
  type : String := ""
  address : String := ""
  cname : String := ""
  text : String := ""
  mxExchange : String := ""
  mxPreference : String := ""
  srvTarget : String := ""
  srvPort : String := ""
  srvPriority : String := ""
  srvWeight : String := ""
  ns : String := ""
  ttl : String := ""
  comment : String := ""
  disabled : String := ""
  addressList : String := ""
deriving DecidableEq, Repr

/-- The logical endpoint handed to the client (external-dns endpoint.Endpoint:
DNSName, RecordType, Targets, RecordTTL, ProviderSpecific). -/
structure Endpoint where
  dnsName : String := ""
  recordType : String := ""
  targets : List String := []
  recordTTL : Int := 0
  providerSpecific : List (String × String) := []
deriving DecidableEq, Repr

/-- Go struct MikrotikDefaults. -/
structure MikrotikDefaults where
  defaultTTL : Int := 3600
  defaultComment : String := ""
deriving DecidableEq, Repr

/-- Go struct MikrotikConnectionConfig. -/
structure MikrotikConnectionConfig where
  baseUrl : String := ""
  username : String := ""
  password : String := ""
  skipTLSVerify : Bool := false
deriving DecidableEq, Repr

/-- Go struct MikrotikApiClient (the embedded http.Client and the mutex carry
no data relevant to the embedded logic). -/
structure MikrotikApiClient where
  defaults : MikrotikDefaults
  config : MikrotikConnectionConfig
deriving DecidableEq, Repr

/-- NewMikrotikClient: fails when defaults.DefaultComment is empty, otherwise
returns the client.  (Cookie-jar construction, the only other fallible step in
the Go code, cannot fail for the fixed options used.) -/
def NewMikrotikClient (config : MikrotikConnectionConfig)
    (defaults : MikrotikDefaults) : Except String MikrotikApiClient :=
  if defaults.defaultComment == "" then
    .error "DefaultComment cannot be empty - it is required to identify records managed by external-dns"
  else
    .ok { defaults := defaults, config := config }

/-- An HTTP response as seen by doRequest: numeric code and status line. -/
structure HttpResponse where
  statusCode : Int := 200
  status : String := ""
  body : String := ""
deriving DecidableEq, Repr

/-- The status handling of doRequest (client.go lines 123-127): any status
outside [200,299] becomes an error whose message is
"request failed: " followed by the status line. -/
def doRequest (method path : String) (resp : HttpResponse) :
    Except String HttpResponse :=
  if resp.statusCode < 200 || resp.statusCode > 299 then
    .error ("request failed: " ++ resp.status)
  else
    .ok resp

/-- getRecordTarget (client.go lines 394-412): extract the target value from a
record based on its type; unknown types yield the empty string. -/
def getRecordTarget (record : DNSRecord) : String :=
  match record.type with
  | "A" | "AAAA" => record.address
  | "CNAME" => record.cname
  | "TXT" => record.text
  | "MX" => record.mxExchange
  | "SRV" => record.srvTarget
  | "NS" => record.ns
  | _ => ""

/-- recordsMatch (client.go lines 300-327): semantic equality used to
re-identify a record after renumbering. -/
def recordsMatch (record1 record2 : DNSRecord) : Bool :=
  if record1.name != record2.name || record1.type != record2.type then
    false
  else
    match record1.type with
    | "A" | "AAAA" => record1.address == record2.address
    | "CNAME" => record1.cname == record2.cname
    | "TXT" => record1.text == record2.text
    | "MX" =>
        record1.mxExchange == record2.mxExchange &&
        record1.mxPreference == record2.mxPreference
    | "SRV" =>
        record1.srvTarget == record2.srvTarget &&
        record1.srvPort == record2.srvPort &&
        record1.srvPriority == record2.srvPriority &&
        record1.srvWeight == record2.srvWeight
    | "NS" => record1.ns == record2.ns
    | _ => record1.comment == record2.comment

/-- The candidate filter of DeleteDNSRecords (client.go lines 213-241): a
record is selected when its name and type match the endpoint, its comment is
the configured DefaultComment, and - when explicit targets are given - its
non-empty decoded target is among them. -/
def shouldDelete (c : MikrotikApiClient) (ep : Endpoint)
    (record : DNSRecord) : Bool :=
  if record.name == ep.dnsName && record.type == ep.recordType then
    if record.comment == c.defaults.defaultComment then
      if ep.targets.length > 0 then
        let recordTarget := getRecordTarget record
        if recordTarget != "" then ep.targets.contains recordTarget else false
      else true
    else false
  else false

/-- recordsToDelete as built from the initial fetch (client.go lines 207-242). -/
def recordsToDeleteFor (c : MikrotikApiClient) (ep : Endpoint)
    (allRecords : List DNSRecord) : List DNSRecord :=
  allRecords.filter (shouldDelete c ep)

/-- One remote REST call, as recorded in traces. -/
inductive ApiCall where
  | fetch (name : String)
  | del (id : String)
  | create (record : DNSRecord)
deriving DecidableEq, Repr

/-- Oracle for the delete path: the result of the n-th fetch
(GetDNSRecordsByName; none = transport or decode failure) and the success of
the n-th delete request. -/
structure DeleteEnv where
  fetchResp : Nat → Option (List DNSRecord)
  delOk : Nat → Bool

/-- Outcome of DeleteDNSRecords: the calls issued and the returned error. -/
structure DeleteResult where
  trace : List ApiCall
  err : Option String
deriving DecidableEq, Repr

/-- The per-candidate loop of DeleteDNSRecords (client.go lines 251-292):
for index i greater than 0 the current records are re-fetched, the candidate
is re-located via recordsMatch (skipping it when absent), and the delete uses
the freshly matched id; fc and dc count the fetches and deletes issued so far
in this call. -/
def deleteLoop (env : DeleteEnv) (name : String) :
    List DNSRecord → Nat → Nat → Nat → DeleteResult
  | [], _, _, _ => { trace := [], err := none }
  | record :: rest, i, fc, dc =>
    if i > 0 then
      match env.fetchResp fc with
      | none =>
          { trace := [ApiCall.fetch name],
            err := some "failed to re-fetch records during deletion" }
      | some currentRecords =>
        match currentRecords.find? (fun currentRecord => recordsMatch record currentRecord) with
        | none =>
            let r := deleteLoop env name rest (i + 1) (fc + 1) dc
            { trace := ApiCall.fetch name :: r.trace, err := r.err }
        | some updatedRecord =>
            if env.delOk dc then
              let r := deleteLoop env name rest (i + 1) (fc + 1) (dc + 1)
              { trace := ApiCall.fetch name :: ApiCall.del updatedRecord.id :: r.trace,
                err := r.err }
            else
              { trace := [ApiCall.fetch name, ApiCall.del updatedRecord.id],
                err := some "request failed" }
    else
      if env.delOk dc then
        let r := deleteLoop env name rest (i + 1) fc (dc + 1)
        { trace := ApiCall.del record.id :: r.trace, err := r.err }
      else
        { trace := [ApiCall.del record.id], err := some "request failed" }

/-- DeleteDNSRecords (client.go lines 193-296): initial server-side-filtered
fetch, candidate construction, empty-set early success, then the
re-verifying delete loop. -/
def DeleteDNSRecords (c : MikrotikApiClient) (ep : Endpoint)
    (env : DeleteEnv) : DeleteResult :=
  match env.fetchResp 0 with
  | none =>
      { trace := [ApiCall.fetch ep.dnsName],
        err := some ("failed to get DNS records for " ++ ep.dnsName) }
  | some allRecords =>
    let recordsToDelete := recordsToDeleteFor c ep allRecords
    if recordsToDelete.length == 0 then
      { trace := [ApiCall.fetch ep.dnsName], err := none }
    else
      let r := deleteLoop env ep.dnsName recordsToDelete 0 1 0
      { trace := ApiCall.fetch ep.dnsName :: r.trace, err := r.err }

/-- Modelled from the spec: TTL encoding of the Record Codec (section 4.1),
whose source file is not under src/.  Seconds exactly divisible render as
days, hours or minutes; otherwise seconds with a unit suffix. -/
def encodeTTL (seconds : Int) : String :=
  if seconds % 86400 == 0 && seconds != 0 then toString (seconds / 86400) ++ "d"
  else if seconds % 3600 == 0 && seconds != 0 then toString (seconds / 3600) ++ "h"
  else if seconds % 60 == 0 && seconds != 0 then toString (seconds / 60) ++ "m"
  else toString seconds ++ "s"

/-- Lookup of a provider-specific property on an endpoint, empty when absent. -/
def providerProperty (ep : Endpoint) (key : String) : String :=
  match ep.providerSpecific.find? (fun p => p.1 == key) with
  | some p => p.2
  | none => ""

/-- Modelled from the spec: the Record Codec encode step (section 4.1), whose
source file (the DNSRecord constructor NewDNSRecord) is not under src/.  For
one target value it populates the kind-specific field(s); MX targets are
"pref exchange", SRV targets are "prio weight port target"; provider-specific
properties supply comment, disabled and address-list; an unsupported kind
fails. -/
def encodeRecord (ep : Endpoint) (target : String) : Except String DNSRecord :=
  let base : DNSRecord :=
    { name := ep.dnsName, type := ep.recordType,
      ttl := encodeTTL ep.recordTTL,
      comment := providerProperty ep "comment",
      disabled := providerProperty ep "disabled",
      addressList := providerProperty ep "address-list" }
  match ep.recordType with
  | "A" | "AAAA" => .ok { base with address := target }
  | "CNAME" => .ok { base with cname := target }
  | "TXT" => .ok { base with text := target }
  | "MX" =>
    match (target.splitOn " ").filter (fun s => s != "") with
    | [pref, exchange] => .ok { base with mxPreference := pref, mxExchange := exchange }
    | _ => .error ("invalid MX target: " ++ target)
  | "SRV" =>
    match (target.splitOn " ").filter (fun s => s != "") with
    | [prio, weight, port, tgt] =>
        .ok { base with srvPriority := prio, srvWeight := weight,
                        srvPort := port, srvTarget := tgt }
    | _ => .error ("invalid SRV target: " ++ target)
  | "NS" => .ok { base with ns := target }
  | _ => .error ("unsupported record type: " ++ ep.recordType)

/-- Encode every target of an endpoint in order, stopping at the first
failure. -/
def encodeTargets (ep : Endpoint) : List String → Except String (List DNSRecord)
  | [] => .ok []
  | target :: rest =>
    match encodeRecord ep target with
    | .error e => .error e
    | .ok record =>
      match encodeTargets ep rest with
      | .error e => .error e
      | .ok records => .ok (record :: records)

/-- Modelled from the spec: NewDNSRecords (called by CreateDNSRecords at
client.go line 334 but defined in a file not under src/): one record per
target, in target order (spec section 4.4). -/
def NewDNSRecords (ep : Endpoint) : Except String (List DNSRecord) :=
  encodeTargets ep ep.targets

/-- Oracle for the create path: the response of the n-th create request
(the record echoed back by the router; none = failure). -/
structure CreateEnv where
  createResp : Nat → Option DNSRecord

/-- Outcome of CreateDNSRecords: calls issued, records successfully created,
and the returned error. -/
structure CreateResult where
  trace : List ApiCall
  created : List DNSRecord
  err : Option String
deriving DecidableEq, Repr

/-- The sequential loop of CreateDNSRecords (client.go lines 345-358): one
create call per record; on the first failure stop and return the records
created so far alongside the error. -/
def createLoop (env : CreateEnv) : List DNSRecord → Nat → CreateResult
  | [], _ => { trace := [], created := [], err := none }
  | record :: rest, i =>
    match env.createResp i with
    | none =>
        { trace := [ApiCall.create record], created := [],
          err := some ("failed to create record " ++ toString (i + 1)) }
    | some createdRecord =>
        let r := createLoop env rest (i + 1)
        { trace := ApiCall.create record :: r.trace,
          created := createdRecord :: r.created, err := r.err }

/-- CreateDNSRecords (client.go lines 329-362): convert the endpoint, force
the DefaultComment on every record, then create sequentially. -/
def CreateDNSRecords (c : MikrotikApiClient) (ep : Endpoint)
    (env : CreateEnv) : CreateResult :=
  match NewDNSRecords ep with
  | .error e =>
      { trace := [], created := [],
        err := some ("failed to convert endpoint to DNS records: " ++ e) }
  | .ok records =>
    let stamped := records.map (fun record => { record with comment := c.defaults.defaultComment })
    createLoop env stamped 0

/-- Substring containment on the underlying character lists, used to state
what an error message carries. -/
def carries (s sub : String) : Prop :=
  sub.data <:+: s.data

instance (s sub : String) : Decidable (carries s sub) :=
  List.decidableInfix sub.data s.data

/-! Helper lemmas shared by the claim theorems. -/

lemma shouldDelete_iff (c : MikrotikApiClient) (ep : Endpoint)
    (record : DNSRecord) :
    shouldDelete c ep record = true ↔
      record.name = ep.dnsName ∧ record.type = ep.recordType ∧
      record.comment = c.defaults.defaultComment ∧
      (ep.targets = [] ∨
        (getRecordTarget record ≠ "" ∧ getRecordTarget record ∈ ep.targets)) := by
  unfold shouldDelete
  split_ifs with h1 h2 h3 <;>
    simp_all [List.length_pos, List.isEmpty_iff]

lemma mem_recordsToDeleteFor (c : MikrotikApiClient) (ep : Endpoint)
    (allRecords : List DNSRecord) (record : DNSRecord) :
    record ∈ recordsToDeleteFor c ep allRecords ↔
      record ∈ allRecords ∧ shouldDelete c ep record = true := by
  simp [recordsToDeleteFor, List.mem_filter]

/-- C5: with a non-empty target list a fetched record is a delete candidate
exactly when name, kind and comment match and its non-empty decoded target is
in the list (an empty decoded target never qualifies); with an empty target
list every name/kind/comment match qualifies. -/
theorem C5_candidateTargetFiltering (c : MikrotikApiClient) (ep : Endpoint)
    (allRecords : List DNSRecord) (record : DNSRecord) :
    (ep.targets ≠ [] →
      (record ∈ recordsToDeleteFor c ep allRecords ↔
        record ∈ allRecords ∧ record.name = ep.dnsName ∧
        record.type = ep.recordType ∧
        record.comment = c.defaults.defaultComment ∧
        getRecordTarget record ≠ "" ∧ getRecordTarget record ∈ ep.targets)) ∧
    (ep.targets = [] →
      (record ∈ recordsToDeleteFor c ep allRecords ↔
        record ∈ allRecords ∧ record.name = ep.dnsName ∧
        record.type = ep.recordType ∧
        record.comment = c.defaults.defaultComment)) := by
  constructor
  · intro ht
    rw [mem_recordsToDeleteFor, shouldDelete_iff]
    constructor
    · rintro ⟨hmem, hn, hk, hc, hrest⟩
      rcases hrest with h | h
      · exact absurd h ht
      · exact ⟨hmem, hn, hk, hc, h.1, h.2⟩
    · rintro ⟨hmem, hn, hk, hc, hne, hin⟩
      exact ⟨hmem, hn, hk, hc, Or.inr ⟨hne, hin⟩⟩
  · intro ht
    rw [mem_recordsToDeleteFor, shouldDelete_iff]
    constructor
    · rintro ⟨hmem, hn, hk, hc, _⟩
      exact ⟨hmem, hn, hk, hc⟩
    · rintro ⟨hmem, hn, hk, hc⟩
      exact ⟨hmem, hn, hk, hc, Or.inl ht⟩

/-- C5 witness: a concrete record with empty decoded target (a TXT record
whose text is empty) is not a candidate although its name, kind and comment
match and the endpoint lists targets; a matching A record is. -/
theorem C5_candidateTargetFiltering_witness :
    ({ name := "w.example.com", type := "TXT", text := "",
       comment := "owned" : DNSRecord } ∉
      recordsToDeleteFor
        { defaults := { defaultComment := "owned" }, config := {} }
        { dnsName := "w.example.com", recordType := "TXT", targets := [""] }
        [{ name := "w.example.com", type := "TXT", text := "",
           comment := "owned" }]) ∧
    ({ name := "w.example.com", type := "A", address := "1.2.3.4",
       comment := "owned" : DNSRecord } ∈
      recordsToDeleteFor
        { defaults := { defaultComment := "owned" }, config := {} }
        { dnsName := "w.example.com", recordType := "A", targets := ["1.2.3.4"] }
        [{ name := "w.example.com", type := "A", address := "1.2.3.4",
           comment := "owned" }]) := by
  constructor
  · intro hmem
    have h := ((C5_candidateTargetFiltering
      { defaults := { defaultComment := "owned" }, config := {} }
      { dnsName := "w.example.com", recordType := "TXT", targets := [""] }
      [{ name := "w.example.com", type := "TXT", text := "", comment := "owned" }]
      { name := "w.example.com", type := "TXT", text := "", comment := "owned" }).1
      (by decide)).mp hmem
    exact h.2.2.2.2.1 (by decide)
  · exact ((C5_candidateTargetFiltering
      { defaults := { defaultComment := "owned" }, config := {} }
      { dnsName := "w.example.com", recordType := "A", targets := ["1.2.3.4"] }
      [{ name := "w.example.com", type := "A", address := "1.2.3.4", comment := "owned" }]
      { name := "w.example.com", type := "A", address := "1.2.3.4", comment := "owned" }).1
      (by decide)).mpr (by refine ⟨by decide, by decide, by decide, by decide, by decide, by decide⟩)

/-- C9: constructing the client with an empty DefaultComment fails and
returns no client; with a non-empty DefaultComment construction succeeds. -/
theorem C9_emptyOwnershipTagRejected (config : MikrotikConnectionConfig)
    (defaults : MikrotikDefaults) :
    (defaults.defaultComment = "" →
      NewMikrotikClient config defaults =
        .error "DefaultComment cannot be empty - it is required to identify records managed by external-dns") ∧
    (defaults.defaultComment ≠ "" →
      NewMikrotikClient config defaults =
        .ok { defaults := defaults, config := config }) := by
  constructor
  · intro h
    simp [NewMikrotikClient, h]
  · intro h
    simp [NewMikrotikClient, h]

/-- C9 witness at concrete inputs. -/
theorem C9_emptyOwnershipTagRejected_witness :
    NewMikrotikClient {} { defaultTTL := 3600, defaultComment := "" } =
      .error "DefaultComment cannot be empty - it is required to identify records managed by external-dns" ∧
    NewMikrotikClient {} { defaultTTL := 3600, defaultComment := "external-dns" } =
      .ok { defaults := { defaultTTL := 3600, defaultComment := "external-dns" },
            config := {} } := by
  exact ⟨(C9_emptyOwnershipTagRejected {} _).1 rfl,
         (C9_emptyOwnershipTagRejected {} _).2 (by decide)⟩

/-- C7 counterexample: the error produced for a 500 response carries the
status line but neither the request method nor the request path. -/
theorem C7_errorContents_counterexample :
    doRequest "GET" "ip/dns/static"
        { statusCode := 500, status := "500 Internal Server Error", body := "" } =
      .error "request failed: 500 Internal Server Error" ∧
    ¬ carries "request failed: 500 Internal Server Error" "GET" ∧
    ¬ carries "request failed: 500 Internal Server Error" "ip/dns/static" := by
  refine ⟨by rfl, by decide, by decide⟩

/-- C7 amended: a status outside [200,299] yields a failure whose error is
"request failed: " followed by the status line; the error carries the status
but not, in general, the method or path. -/
theorem C7_errorCarriesStatus (method path : String) (resp : HttpResponse)
    (h : resp.statusCode < 200 ∨ 299 < resp.statusCode) :
    doRequest method path resp = .error ("request failed: " ++ resp.status) ∧
    carries ("request failed: " ++ resp.status) resp.status := by
  have hcond : (resp.statusCode < 200 || resp.statusCode > 299) = true := by
    rcases h with h | h <;> simp [h]
  refine ⟨by simp [doRequest, hcond], ?_⟩
  show resp.status.data <:+: ("request failed: " ++ resp.status).data
  rw [String.data_append]
  exact (List.suffix_append _ _).isInfix

/-- C7 amended witness at a concrete response. -/
theorem C7_errorCarriesStatus_witness :
    doRequest "GET" "ip/dns/static"
        { statusCode := 404, status := "404 Not Found", body := "" } =
      .error ("request failed: " ++ "404 Not Found") ∧
    carries ("request failed: " ++ "404 Not Found") "404 Not Found" :=
  C7_errorCarriesStatus "GET" "ip/dns/static"
    { statusCode := 404, status := "404 Not Found", body := "" }
    (Or.inr (by decide))

/-- C10: for the seven known kinds, recordsMatch is unchanged when id, ttl,
comment, disabled and address-list are replaced on either side, and a record
differing from another only in those five fields is judged the same logical
record. -/
theorem C10_matcherIgnoresMetadata (record1 record2 : DNSRecord)
    (hkind : record1.type = "A" ∨ record1.type = "AAAA" ∨
      record1.type = "CNAME" ∨ record1.type = "TXT" ∨ record1.type = "MX" ∨
      record1.type = "SRV" ∨ record1.type = "NS")
    (id1 ttl1 comment1 disabled1 list1 id2 ttl2 comment2 disabled2 list2 : String) :
    recordsMatch
        { record1 with id := id1, ttl := ttl1, comment := comment1,
                       disabled := disabled1, addressList := list1 }
        { record2 with id := id2, ttl := ttl2, comment := comment2,
                       disabled := disabled2, addressList := list2 } =
      recordsMatch record1 record2 ∧
    recordsMatch record1
        { record1 with id := id2, ttl := ttl2, comment := comment2,
                       disabled := disabled2, addressList := list2 } = true := by
  rcases hkind with h | h | h | h | h | h | h <;>
    simp [recordsMatch, h]

/-- C10 witness: two A records differing in id, ttl, comment, disabled and
address-list still match, and the metadata replacement does not change the
verdict. -/
theorem C10_matcherIgnoresMetadata_witness :
    recordsMatch
        { id := "*9", name := "a.example.com", type := "A",
          address := "1.2.3.4", ttl := "2h", comment := "other",
          disabled := "true", addressList := "wan" }
        { id := "*8", name := "a.example.com", type := "A",
          address := "1.2.3.4", ttl := "3h", comment := "another",
          disabled := "false", addressList := "lan" } =
      recordsMatch
        { id := "*1", name := "a.example.com", type := "A",
          address := "1.2.3.4", ttl := "1h", comment := "owned" }
        { id := "*2", name := "a.example.com", type := "A",
          address := "1.2.3.4" } ∧
    recordsMatch
        { id := "*1", name := "a.example.com", type := "A",
          address := "1.2.3.4", ttl := "1h", comment := "owned" }
        { id := "*2", name := "a.example.com", type := "A",
          address := "1.2.3.4", ttl := "9h", comment := "foreign",
          disabled := "true", addressList := "wan" } = true := by
  exact C10_matcherIgnoresMetadata
    { id := "*1", name := "a.example.com", type := "A",
      address := "1.2.3.4", ttl := "1h", comment := "owned" }
    { id := "*2", name := "a.example.com", type := "A", address := "1.2.3.4" }
    (Or.inl rfl) "*9" "2h" "other" "true" "wan" "*2" "9h" "foreign" "true" "wan"

/-- C4: when the candidate set built from the initial fetch is empty,
DeleteDNSRecords succeeds with exactly the initial fetch call and no delete
calls; a second identical call therefore behaves the same way. -/
theorem C4_emptyCandidatesIdempotent (c : MikrotikApiClient) (ep : Endpoint)
    (env : DeleteEnv) (allRecords : List DNSRecord)
    (h0 : env.fetchResp 0 = some allRecords)
    (hempty : recordsToDeleteFor c ep allRecords = []) :
    (DeleteDNSRecords c ep env).err = none ∧
    (DeleteDNSRecords c ep env).trace = [ApiCall.fetch ep.dnsName] ∧
    ∀ id, ApiCall.del id ∉ (DeleteDNSRecords c ep env).trace := by
  have hres : DeleteDNSRecords c ep env =
      { trace := [ApiCall.fetch ep.dnsName], err := none } := by
    unfold DeleteDNSRecords
    rw [h0]
    simp [hempty]
  rw [hres]
  refine ⟨rfl, rfl, ?_⟩
  intro id hmem
  simp at hmem

/-- C4 witness: a fetch returning one unmanaged record yields an empty
candidate set, success, and no delete calls. -/
theorem C4_emptyCandidatesIdempotent_witness :
    (DeleteDNSRecords
        { defaults := { defaultComment := "owned" }, config := {} }
        { dnsName := "gone.example.com", recordType := "A", targets := ["1.2.3.4"] }
        { fetchResp := fun _ => some [], delOk := fun _ => true }).err = none ∧
    (DeleteDNSRecords
        { defaults := { defaultComment := "owned" }, config := {} }
        { dnsName := "gone.example.com", recordType := "A", targets := ["1.2.3.4"] }
        { fetchResp := fun _ => some [], delOk := fun _ => true }).trace =
      [ApiCall.fetch "gone.example.com"] ∧
    ∀ id, ApiCall.del id ∉
      (DeleteDNSRecords
        { defaults := { defaultComment := "owned" }, config := {} }
        { dnsName := "gone.example.com", recordType := "A", targets := ["1.2.3.4"] }
        { fetchResp := fun _ => some [], delOk := fun _ => true }).trace := by
  exact C4_emptyCandidatesIdempotent _ _ _ [] rfl rfl

/-- C1: for a candidate after the first (i > 0), the loop first re-fetches;
when the matcher finds a semantically identical record the delete is issued
with the freshly matched id (updatedRecord.id, not the captured record.id),
and when nothing matches the candidate is skipped and the outcome is that of
the remaining candidates, with no error added. -/
theorem C1_reverifyBeforeEachDelete (env : DeleteEnv) (name : String)
    (record : DNSRecord) (rest : List DNSRecord) (i fc dc : Nat)
    (hi : 0 < i) (currentRecords : List DNSRecord)
    (hfetch : env.fetchResp fc = some currentRecords) :
    (∀ updatedRecord : DNSRecord,
      currentRecords.find? (fun currentRecord => recordsMatch record currentRecord) =
        some updatedRecord →
      env.delOk dc = true →
      (deleteLoop env name (record :: rest) i fc dc).trace =
        ApiCall.fetch name :: ApiCall.del updatedRecord.id ::
          (deleteLoop env name rest (i + 1) (fc + 1) (dc + 1)).trace) ∧
    (currentRecords.find? (fun currentRecord => recordsMatch record currentRecord) = none →
      deleteLoop env name (record :: rest) i fc dc =
        { trace := ApiCall.fetch name ::
            (deleteLoop env name rest (i + 1) (fc + 1) dc).trace,
          err := (deleteLoop env name rest (i + 1) (fc + 1) dc).err }) := by
  constructor
  · intro updatedRecord hfind hok
    simp only [deleteLoop, if_pos hi, hfetch, hfind, hok, if_true]
  · intro hfind
    simp only [deleteLoop, if_pos hi, hfetch, hfind]

/-- C1 witness: the captured candidate has id "*2" but the re-fetch returns
it under id "*7"; the delete is issued for "*7".  With an empty re-fetch the
candidate is skipped and no error is returned. -/
theorem C1_reverifyBeforeEachDelete_witness :
    (deleteLoop
        { fetchResp := fun _ => some
            [{ id := "*7", name := "m.example.com", type := "A",
               address := "5.6.7.8", comment := "owned" }],
          delOk := fun _ => true }
        "m.example.com"
        [{ id := "*2", name := "m.example.com", type := "A",
           address := "5.6.7.8", comment := "owned" }] 1 1 0).trace =
      [ApiCall.fetch "m.example.com", ApiCall.del "*7"] ∧
    deleteLoop
        { fetchResp := fun _ => some [], delOk := fun _ => true }
        "m.example.com"
        [{ id := "*2", name := "m.example.com", type := "A",
           address := "5.6.7.8", comment := "owned" }] 1 1 0 =
      { trace := [ApiCall.fetch "m.example.com"], err := none } := by
  constructor
  · rw [(C1_reverifyBeforeEachDelete
        { fetchResp := fun _ => some
            [{ id := "*7", name := "m.example.com", type := "A",
               address := "5.6.7.8", comment := "owned" }],
          delOk := fun _ => true }
        "m.example.com"
        { id := "*2", name := "m.example.com", type := "A",
          address := "5.6.7.8", comment := "owned" } [] 1 1 0 (by decide)
        [{ id := "*7", name := "m.example.com", type := "A",
           address := "5.6.7.8", comment := "owned" }] rfl).1
        { id := "*7", name := "m.example.com", type := "A",
          address := "5.6.7.8", comment := "owned" } rfl rfl]
    rfl
  · rw [(C1_reverifyBeforeEachDelete
        { fetchResp := fun _ => some [], delOk := fun _ => true }
        "m.example.com"
        { id := "*2", name := "m.example.com", type := "A",
          address := "5.6.7.8", comment := "owned" } [] 1 1 0 (by decide)
        [] rfl).2 rfl]
    rfl

/-- Provenance of every id the loop deletes: it is the id of one of the
loop's own candidate records (the first candidate, deleted directly), or the
id of a record returned by one of the re-fetches (fetch index at least 1). -/
lemma deleteLoop_del_sources (env : DeleteEnv) (name : String) :
    ∀ (records : List DNSRecord) (i fc dc : Nat), 1 ≤ fc →
      ∀ id, ApiCall.del id ∈ (deleteLoop env name records i fc dc).trace →
        (∃ r ∈ records, r.id = id) ∨
        (∃ n recs, 1 ≤ n ∧ env.fetchResp n = some recs ∧
          ∃ r ∈ recs, r.id = id) := by
  intro records
  induction records with
  | nil =>
    intro i fc dc hfc id hmem
    simp [deleteLoop] at hmem
  | cons record rest ih =>
    intro i fc dc hfc id hmem
    by_cases hi : i > 0
    · cases hf : env.fetchResp fc with
      | none =>
        simp only [deleteLoop, if_pos hi, hf] at hmem
        simp at hmem
      | some currentRecords =>
        cases hfind : currentRecords.find?
            (fun currentRecord => recordsMatch record currentRecord) with
        | none =>
          simp only [deleteLoop, if_pos hi, hf, hfind] at hmem
          simp only [List.mem_cons] at hmem
          rcases hmem with h | h
          · cases h
          · rcases ih (i + 1) (fc + 1) dc (by omega) id h with
              ⟨r, hr, hid⟩ | hrf
            · exact Or.inl ⟨r, List.mem_cons_of_mem _ hr, hid⟩
            · exact Or.inr hrf
        | some updatedRecord =>
          cases hok : env.delOk dc with
          | false =>
            simp only [deleteLoop, if_pos hi, hf, hfind, hok] at hmem
            simp at hmem
            exact Or.inr ⟨fc, currentRecords, hfc, hf, updatedRecord,
              List.mem_of_find?_eq_some hfind, hmem.symm⟩
          | true =>
            simp only [deleteLoop, if_pos hi, hf, hfind, hok, if_true] at hmem
            simp only [List.mem_cons] at hmem
            rcases hmem with h | h | h
            · cases h
            · cases h
              exact Or.inr ⟨fc, currentRecords, hfc, hf, updatedRecord,
                List.mem_of_find?_eq_some hfind, rfl⟩
            · rcases ih (i + 1) (fc + 1) (dc + 1) (by omega) id h with
                ⟨r, hr, hid⟩ | hrf
              · exact Or.inl ⟨r, List.mem_cons_of_mem _ hr, hid⟩
              · exact Or.inr hrf
    · cases hok : env.delOk dc with
      | false =>
        simp only [deleteLoop, if_neg hi, hok] at hmem
        simp at hmem
        exact Or.inl ⟨record, List.mem_cons_self record rest, hmem.symm⟩
      | true =>
        simp only [deleteLoop, if_neg hi, hok, if_true] at hmem
        simp only [List.mem_cons] at hmem
        rcases hmem with h | h
        · cases h
          exact Or.inl ⟨record, List.mem_cons_self record rest, rfl⟩
        · rcases ih (i + 1) fc (dc + 1) hfc id h with ⟨r, hr, hid⟩ | hrf
          · exact Or.inl ⟨r, List.mem_cons_of_mem _ hr, hid⟩
          · exact Or.inr hrf

/-- C2: a fetched record whose comment is not the configured DefaultComment
is never a delete candidate; every delete call issued by DeleteDNSRecords
targets the id of a record that is either an initial candidate or was
returned by a re-fetch - in both cases a record carrying the DefaultComment
(re-fetches are server-side filtered by the ownership comment); consequently,
when distinct records never share an id, no delete call is ever issued for
the foreign record's id. -/
theorem C2_ownershipBoundary (c : MikrotikApiClient) (ep : Endpoint)
    (env : DeleteEnv) (allRecords : List DNSRecord) (record : DNSRecord)
    (h0 : env.fetchResp 0 = some allRecords)
    (hmem : record ∈ allRecords)
    (hcomment : record.comment ≠ c.defaults.defaultComment)
    (hfilter : ∀ n recs, 1 ≤ n → env.fetchResp n = some recs →
      ∀ r ∈ recs, r.comment = c.defaults.defaultComment) :
    record ∉ recordsToDeleteFor c ep allRecords ∧
    (∀ id, ApiCall.del id ∈ (DeleteDNSRecords c ep env).trace →
      ∃ r : DNSRecord, r.id = id ∧ r.comment = c.defaults.defaultComment ∧
        (r ∈ recordsToDeleteFor c ep allRecords ∨
         ∃ n recs, 1 ≤ n ∧ env.fetchResp n = some recs ∧ r ∈ recs)) ∧
    ((∀ r : DNSRecord,
        (r ∈ allRecords ∨
         ∃ n recs, 1 ≤ n ∧ env.fetchResp n = some recs ∧ r ∈ recs) →
        r.id = record.id → r = record) →
      ApiCall.del record.id ∉ (DeleteDNSRecords c ep env).trace) := by
  have hnotcand : record ∉ recordsToDeleteFor c ep allRecords := by
    intro hin
    have h := (mem_recordsToDeleteFor c ep allRecords record).mp hin
    have h2 := (shouldDelete_iff c ep record).mp h.2
    exact hcomment h2.2.2.1
  have hdelsrc : ∀ id, ApiCall.del id ∈ (DeleteDNSRecords c ep env).trace →
      ∃ r : DNSRecord, r.id = id ∧ r.comment = c.defaults.defaultComment ∧
        (r ∈ recordsToDeleteFor c ep allRecords ∨
         ∃ n recs, 1 ≤ n ∧ env.fetchResp n = some recs ∧ r ∈ recs) := by
    intro id hdel
    unfold DeleteDNSRecords at hdel
    rw [h0] at hdel
    by_cases hlen : (recordsToDeleteFor c ep allRecords).length = 0
    · simp only [hlen] at hdel
      simp at hdel
    · have hlen2 : ((recordsToDeleteFor c ep allRecords).length == 0) = false := by
        simp [hlen]
      simp only [hlen2, Bool.false_eq_true, if_false] at hdel
      simp only [List.mem_cons] at hdel
      rcases hdel with h | h
      · cases h
      · rcases deleteLoop_del_sources env ep.dnsName
            (recordsToDeleteFor c ep allRecords) 0 1 0 (by omega) id h with
          ⟨r, hr, hid⟩ | ⟨n, recs, hn, hfr, r, hr, hid⟩
        · refine ⟨r, hid, ?_, Or.inl hr⟩
          exact ((shouldDelete_iff c ep r).mp
            ((mem_recordsToDeleteFor c ep allRecords r).mp hr).2).2.2.1
        · exact ⟨r, hid, hfilter n recs hn hfr r hr,
            Or.inr ⟨n, recs, hn, hfr, hr⟩⟩
  refine ⟨hnotcand, hdelsrc, ?_⟩
  intro huniq hdel
  obtain ⟨r, hid, htag, hsrc⟩ := hdelsrc record.id hdel
  have hreq : r = record := by
    rcases hsrc with hcand | ⟨n, recs, hn, hfr, hr⟩
    · exact huniq r
        (Or.inl ((mem_recordsToDeleteFor c ep allRecords r).mp hcand).1) hid
    · exact huniq r (Or.inr ⟨n, recs, hn, hfr, hr⟩) hid
  rw [hreq] at htag
  exact hcomment htag

/-- C2 witness: an unmanaged record ("manual-entry", id "*1") matching name,
kind and target is not a candidate, and (ids being unique here) no delete
call for "*1" is ever issued by the call. -/
theorem C2_ownershipBoundary_witness :
    ({ id := "*1", name := "example.com", type := "A", address := "1.2.3.4",
       comment := "manual-entry" : DNSRecord } ∉
      recordsToDeleteFor
        { defaults := { defaultComment := "external-dns" }, config := {} }
        { dnsName := "example.com", recordType := "A", targets := ["1.2.3.4"] }
        [{ id := "*1", name := "example.com", type := "A",
           address := "1.2.3.4", comment := "manual-entry" },
         { id := "*2", name := "example.com", type := "A",
           address := "1.2.3.4", comment := "external-dns" }]) ∧
    ApiCall.del "*1" ∉
      (DeleteDNSRecords
        { defaults := { defaultComment := "external-dns" }, config := {} }
        { dnsName := "example.com", recordType := "A", targets := ["1.2.3.4"] }
        { fetchResp := fun n =>
            if n = 0 then
              some [{ id := "*1", name := "example.com", type := "A",
                      address := "1.2.3.4", comment := "manual-entry" },
                    { id := "*2", name := "example.com", type := "A",
                      address := "1.2.3.4", comment := "external-dns" }]
            else some [],
          delOk := fun _ => true }).trace := by
  have h := C2_ownershipBoundary
    { defaults := { defaultComment := "external-dns" }, config := {} }
    { dnsName := "example.com", recordType := "A", targets := ["1.2.3.4"] }
    { fetchResp := fun n =>
        if n = 0 then
          some [{ id := "*1", name := "example.com", type := "A",
                  address := "1.2.3.4", comment := "manual-entry" },
                { id := "*2", name := "example.com", type := "A",
                  address := "1.2.3.4", comment := "external-dns" }]
        else some [],
      delOk := fun _ => true }
    [{ id := "*1", name := "example.com", type := "A",
       address := "1.2.3.4", comment := "manual-entry" },
     { id := "*2", name := "example.com", type := "A",
       address := "1.2.3.4", comment := "external-dns" }]
    { id := "*1", name := "example.com", type := "A",
      address := "1.2.3.4", comment := "manual-entry" }
    rfl (by decide) (by decide)
    (by
      intro n recs hn hfetch r hr
      have hne : ¬ n = 0 := by omega
      simp only [hne, if_false] at hfetch
      cases hfetch
      simp at hr)
  refine ⟨h.1, h.2.2 ?_⟩
  intro r hsrc hid
  rcases hsrc with hsrc | ⟨n, recs, hn, hfr, hr⟩
  · simp only [List.mem_cons, List.not_mem_nil, or_false] at hsrc
    rcases hsrc with hsrc | hsrc
    · exact hsrc
    · subst hsrc
      exact absurd hid (by decide)
  · have hne : ¬ n = 0 := by omega
    simp only [hne, if_false] at hfr
    cases hfr
    simp at hr

/-- After the first candidate (i > 0), each remaining candidate contributes at
most two calls (one re-fetch and at most one delete). -/
lemma deleteLoop_trace_length_le (env : DeleteEnv) (name : String) :
    ∀ (records : List DNSRecord) (i fc dc : Nat), 0 < i →
      (deleteLoop env name records i fc dc).trace.length ≤ 2 * records.length := by
  intro records
  induction records with
  | nil =>
    intro i fc dc hi
    simp [deleteLoop]
  | cons record rest ih =>
    intro i fc dc hi
    cases hf : env.fetchResp fc with
    | none =>
      simp only [deleteLoop, if_pos hi, hf]
      simp
      omega
    | some currentRecords =>
      cases hfind : currentRecords.find?
          (fun currentRecord => recordsMatch record currentRecord) with
      | none =>
        simp only [deleteLoop, if_pos hi, hf, hfind]
        have := ih (i + 1) (fc + 1) dc (by omega)
        simp only [List.length_cons]
        simp
        omega
      | some updatedRecord =>
        cases hok : env.delOk dc with
        | true =>
          simp only [deleteLoop, if_pos hi, hf, hfind, hok, if_true]
          have := ih (i + 1) (fc + 1) (dc + 1) (by omega)
          simp only [List.length_cons]
          simp
          omega
        | false =>
          simp only [deleteLoop, if_pos hi, hf, hfind, hok]
          simp

/-- When every fetch succeeds, every candidate is re-located and every delete
succeeds, each candidate after the first contributes exactly two calls. -/
lemma deleteLoop_trace_length_eq (env : DeleteEnv) (name : String)
    (hfetchAll : ∀ n, (env.fetchResp n).isSome)
    (hdel : ∀ n, env.delOk n = true) :
    ∀ (records : List DNSRecord) (i fc dc : Nat), 0 < i → 1 ≤ fc →
      (∀ n recs, 1 ≤ n → env.fetchResp n = some recs →
        ∀ r ∈ records,
          (recs.find? (fun currentRecord => recordsMatch r currentRecord)).isSome) →
      (deleteLoop env name records i fc dc).trace.length = 2 * records.length := by
  intro records
  induction records with
  | nil =>
    intro i fc dc hi hfc hmatch
    simp [deleteLoop]
  | cons record rest ih =>
    intro i fc dc hi hfc hmatch
    obtain ⟨currentRecords, hf⟩ := Option.isSome_iff_exists.mp (hfetchAll fc)
    obtain ⟨updatedRecord, hfind⟩ := Option.isSome_iff_exists.mp
      (hmatch fc currentRecords hfc hf record (List.mem_cons_self record rest))
    simp only [deleteLoop, if_pos hi, hf, hfind, hdel dc, if_true]
    have := ih (i + 1) (fc + 1) (dc + 1) (by omega) (by omega)
      (fun n recs hn hr r hrr => hmatch n recs hn hr r (List.mem_cons_of_mem _ hrr))
    simp only [List.length_cons]
    omega

/-- The first candidate contributes at most one call (its delete). -/
lemma deleteLoop_zero_length_le (env : DeleteEnv) (name : String)
    (record : DNSRecord) (rest : List DNSRecord) (fc dc : Nat) :
    (deleteLoop env name (record :: rest) 0 fc dc).trace.length ≤
      1 + (deleteLoop env name rest 1 fc (dc + 1)).trace.length := by
  cases hok : env.delOk dc with
  | true =>
    simp [deleteLoop, hok]
    omega
  | false =>
    simp [deleteLoop, hok]

/-- When its delete succeeds, the first candidate contributes exactly one
call followed by the loop over the rest. -/
lemma deleteLoop_zero_length_eq (env : DeleteEnv) (name : String)
    (record : DNSRecord) (rest : List DNSRecord) (fc dc : Nat)
    (hok : env.delOk dc = true) :
    (deleteLoop env name (record :: rest) 0 fc dc).trace.length =
      1 + (deleteLoop env name rest 1 fc (dc + 1)).trace.length := by
  simp [deleteLoop, hok]
  omega

/-- C8: with N candidates (N at least 1) the call trace has at most
1 + (2N - 1) entries, with equality when no fetch fails, every candidate is
re-located, and every delete succeeds. -/
theorem C8_callCountBound (c : MikrotikApiClient) (ep : Endpoint)
    (env : DeleteEnv) (allRecords : List DNSRecord)
    (h0 : env.fetchResp 0 = some allRecords)
    (hN : 1 ≤ (recordsToDeleteFor c ep allRecords).length) :
    (DeleteDNSRecords c ep env).trace.length ≤
      1 + (2 * (recordsToDeleteFor c ep allRecords).length - 1) ∧
    ((∀ n, (env.fetchResp n).isSome) →
     (∀ n, env.delOk n = true) →
     (∀ n recs, 1 ≤ n → env.fetchResp n = some recs →
       ∀ r ∈ recordsToDeleteFor c ep allRecords,
         (recs.find? (fun currentRecord => recordsMatch r currentRecord)).isSome) →
     (DeleteDNSRecords c ep env).trace.length =
       1 + (2 * (recordsToDeleteFor c ep allRecords).length - 1)) := by
  have hne : ((recordsToDeleteFor c ep allRecords).length == 0) = false := by
    have hz : (recordsToDeleteFor c ep allRecords).length ≠ 0 := by omega
    simpa using hz
  have htop : DeleteDNSRecords c ep env =
      { trace := ApiCall.fetch ep.dnsName ::
          (deleteLoop env ep.dnsName (recordsToDeleteFor c ep allRecords) 0 1 0).trace,
        err := (deleteLoop env ep.dnsName (recordsToDeleteFor c ep allRecords) 0 1 0).err } := by
    unfold DeleteDNSRecords
    rw [h0]
    simp only [hne, Bool.false_eq_true, if_false]
  obtain ⟨record, rest, hcand⟩ :
      ∃ record rest, recordsToDeleteFor c ep allRecords = record :: rest := by
    cases hc : recordsToDeleteFor c ep allRecords with
    | nil =>
      rw [hc] at hN
      simp at hN
    | cons a l => exact ⟨a, l, rfl⟩
  constructor
  · rw [htop, hcand]
    have h1 := deleteLoop_zero_length_le env ep.dnsName record rest 1 0
    simp only [Nat.zero_add] at h1
    have h2 := deleteLoop_trace_length_le env ep.dnsName rest 1 1 1 (by omega)
    simp only [List.length_cons]
    omega
  · intro hfetchAll hdel hmatch
    rw [hcand] at hmatch
    rw [htop, hcand]
    have h1 := deleteLoop_zero_length_eq env ep.dnsName record rest 1 0
      (hdel 0)
    simp only [Nat.zero_add] at h1
    have h2 := deleteLoop_trace_length_eq env ep.dnsName hfetchAll hdel rest 1 1 1
      (by omega) (by omega)
      (fun n recs hn hr r hrr => hmatch n recs hn hr r (List.mem_cons_of_mem _ hrr))
    simp only [List.length_cons]
    omega

/-- C8 witness: two owned candidates, an environment where every call
succeeds and both candidates stay locatable: the trace has exactly
1 + (2 x 2 - 1) = 4 entries. -/
theorem C8_callCountBound_witness :
    (DeleteDNSRecords
        { defaults := { defaultComment := "owned" }, config := {} }
        { dnsName := "multi.example.com", recordType := "A",
          targets := ["1.2.3.4", "5.6.7.8"] }
        { fetchResp := fun _ => some
            [{ id := "*1", name := "multi.example.com", type := "A",
               address := "1.2.3.4", comment := "owned" },
             { id := "*2", name := "multi.example.com", type := "A",
               address := "5.6.7.8", comment := "owned" }],
          delOk := fun _ => true }).trace.length =
      1 + (2 * (recordsToDeleteFor
        { defaults := { defaultComment := "owned" }, config := {} }
        { dnsName := "multi.example.com", recordType := "A",
          targets := ["1.2.3.4", "5.6.7.8"] }
        [{ id := "*1", name := "multi.example.com", type := "A",
           address := "1.2.3.4", comment := "owned" },
         { id := "*2", name := "multi.example.com", type := "A",
           address := "5.6.7.8", comment := "owned" }]).length - 1) := by
  exact (C8_callCountBound
    { defaults := { defaultComment := "owned" }, config := {} }
    { dnsName := "multi.example.com", recordType := "A",
      targets := ["1.2.3.4", "5.6.7.8"] }
    { fetchResp := fun _ => some
        [{ id := "*1", name := "multi.example.com", type := "A",
           address := "1.2.3.4", comment := "owned" },
         { id := "*2", name := "multi.example.com", type := "A",
           address := "5.6.7.8", comment := "owned" }],
      delOk := fun _ => true }
    [{ id := "*1", name := "multi.example.com", type := "A",
       address := "1.2.3.4", comment := "owned" },
     { id := "*2", name := "multi.example.com", type := "A",
       address := "5.6.7.8", comment := "owned" }]
    rfl (by decide)).2
    (fun n => rfl)
    (fun n => rfl)
    (by
      intro n recs hn hfetch r hr
      cases hfetch
      have hcand : recordsToDeleteFor
          { defaults := { defaultComment := "owned" }, config := {} }
          { dnsName := "multi.example.com", recordType := "A",
            targets := ["1.2.3.4", "5.6.7.8"] }
          [{ id := "*1", name := "multi.example.com", type := "A",
             address := "1.2.3.4", comment := "owned" },
           { id := "*2", name := "multi.example.com", type := "A",
             address := "5.6.7.8", comment := "owned" }] =
          [{ id := "*1", name := "multi.example.com", type := "A",
             address := "1.2.3.4", comment := "owned" },
           { id := "*2", name := "multi.example.com", type := "A",
             address := "5.6.7.8", comment := "owned" }] := by decide
      rw [hcand] at hr
      simp only [List.mem_cons, List.not_mem_nil, or_false] at hr
      rcases hr with h | h <;> subst h <;> decide)

/-- The endpoint with any caller-supplied comment property removed. -/
def dropCommentProperty (ep : Endpoint) : Endpoint :=
  { ep with providerSpecific := ep.providerSpecific.filter (fun p => p.1 != "comment") }

lemma find?_comment_filter (ps : List (String × String)) :
    (ps.filter (fun p => p.1 != "comment")).find? (fun p => p.1 == "comment") = none := by
  induction ps with
  | nil => rfl
  | cons p ps ih =>
    by_cases hp : p.1 = "comment" <;> simp [List.filter_cons, hp, ih]

lemma find?_key_filter (ps : List (String × String)) (key : String)
    (hkey : key ≠ "comment") :
    (ps.filter (fun p => p.1 != "comment")).find? (fun p => p.1 == key) =
      ps.find? (fun p => p.1 == key) := by
  induction ps with
  | nil => rfl
  | cons p ps ih =>
    by_cases hp : p.1 = "comment"
    · have hpk : ¬ p.1 = key := by
        rw [hp]
        exact fun h => hkey h.symm
      have hck : ("comment" == key) = false := by
        simp
        exact fun h => hkey h.symm
      simp [List.filter_cons, List.find?_cons, hp, hpk, hck, ih]
    · by_cases hpk : p.1 = key <;>
        simp [List.filter_cons, List.find?_cons, hp, hpk, hkey, ih]

lemma providerProperty_dropComment (ep : Endpoint) :
    providerProperty (dropCommentProperty ep) "comment" = "" := by
  simp only [providerProperty, dropCommentProperty]
  rw [find?_comment_filter]

lemma providerProperty_dropOther (ep : Endpoint) (key : String)
    (hkey : key ≠ "comment") :
    providerProperty (dropCommentProperty ep) key = providerProperty ep key := by
  simp only [providerProperty, dropCommentProperty]
  rw [find?_key_filter _ _ hkey]

/-- Removing the caller comment only blanks the comment field of every
encoded record. -/
lemma encodeRecord_dropComment (ep : Endpoint) (target : String) :
    encodeRecord (dropCommentProperty ep) target =
      Except.map (fun record => { record with comment := "" })
        (encodeRecord ep target) := by
  unfold encodeRecord
  rw [providerProperty_dropComment,
      providerProperty_dropOther ep "disabled" (by decide),
      providerProperty_dropOther ep "address-list" (by decide)]
  simp only [dropCommentProperty]
  split <;> (try split) <;> rfl

lemma encodeTargets_dropComment (ep : Endpoint) :
    ∀ ts : List String,
      encodeTargets (dropCommentProperty ep) ts =
        Except.map (List.map (fun record => { record with comment := "" }))
          (encodeTargets ep ts) := by
  intro ts
  induction ts with
  | nil => rfl
  | cons target rest ih =>
    unfold encodeTargets
    rw [encodeRecord_dropComment, ih]
    cases encodeRecord ep target <;> cases encodeTargets ep rest <;>
      simp [Except.map]

lemma NewDNSRecords_dropComment (ep : Endpoint) :
    NewDNSRecords (dropCommentProperty ep) =
      Except.map (List.map (fun record => { record with comment := "" }))
        (NewDNSRecords ep) := by
  unfold NewDNSRecords
  have ht : (dropCommentProperty ep).targets = ep.targets := rfl
  rw [ht, encodeTargets_dropComment]

lemma stamp_after_erase (tag : String) (records : List DNSRecord) :
    (records.map (fun record => { record with comment := "" })).map
        (fun record => { record with comment := tag }) =
      records.map (fun record => { record with comment := tag }) := by
  rw [List.map_map]
  rfl

/-- Every call in a createLoop trace is a create of one of the loop's input
records. -/
lemma createLoop_trace_sub (env : CreateEnv) :
    ∀ (records : List DNSRecord) (i : Nat) (call : ApiCall),
      call ∈ (createLoop env records i).trace →
      ∃ record ∈ records, call = ApiCall.create record := by
  intro records
  induction records with
  | nil =>
    intro i call h
    simp [createLoop] at h
  | cons record rest ih =>
    intro i call h
    cases hcr : env.createResp i with
    | none =>
      simp only [createLoop, hcr] at h
      simp at h
      exact ⟨record, List.mem_cons_self record rest, h⟩
    | some createdRecord =>
      simp only [createLoop, hcr] at h
      simp only [List.mem_cons] at h
      rcases h with h | h
      · exact ⟨record, List.mem_cons_self record rest, h⟩
      · obtain ⟨r, hr, hc⟩ := ih (i + 1) call h
        exact ⟨r, List.mem_cons_of_mem _ hr, hc⟩

/-- C6: every record sent in a create call carries the DefaultComment, and
removing any caller-supplied comment property from the endpoint leaves the
whole outcome of CreateDNSRecords unchanged: the caller comment is silently
overridden, never rejected. -/
theorem C6_commentOverride (c : MikrotikApiClient) (ep : Endpoint)
    (env : CreateEnv) :
    (∀ call ∈ (CreateDNSRecords c ep env).trace,
      ∃ record : DNSRecord, call = ApiCall.create record ∧
        record.comment = c.defaults.defaultComment) ∧
    CreateDNSRecords c (dropCommentProperty ep) env = CreateDNSRecords c ep env := by
  constructor
  · intro call hcall
    unfold CreateDNSRecords at hcall
    cases hrec : NewDNSRecords ep with
    | error e =>
      rw [hrec] at hcall
      simp at hcall
    | ok records =>
      rw [hrec] at hcall
      obtain ⟨record, hmem, hc⟩ := createLoop_trace_sub env _ 0 call hcall
      obtain ⟨r0, hr0, hr0eq⟩ := List.mem_map.mp hmem
      refine ⟨record, hc, ?_⟩
      rw [← hr0eq]
  · unfold CreateDNSRecords
    rw [NewDNSRecords_dropComment]
    cases hrec : NewDNSRecords ep with
    | error e => simp [Except.map]
    | ok records =>
      simp only [Except.map]
      rw [stamp_after_erase]

/-- C6 witness: a caller trying to smuggle comment "spoof" through the
provider properties: the single created payload carries the client comment
"owned", and dropping the spoofed property changes nothing. -/
theorem C6_commentOverride_witness :
    (∀ call ∈ (CreateDNSRecords
        { defaults := { defaultComment := "owned" }, config := {} }
        { dnsName := "new.example.com", recordType := "A",
          targets := ["1.2.3.4"], recordTTL := 3600,
          providerSpecific := [("comment", "spoof")] }
        { createResp := fun _ => some {} }).trace,
      ∃ record : DNSRecord, call = ApiCall.create record ∧
        record.comment = "owned") ∧
    CreateDNSRecords
        { defaults := { defaultComment := "owned" }, config := {} }
        (dropCommentProperty
          { dnsName := "new.example.com", recordType := "A",
            targets := ["1.2.3.4"], recordTTL := 3600,
            providerSpecific := [("comment", "spoof")] })
        { createResp := fun _ => some {} } =
      CreateDNSRecords
        { defaults := { defaultComment := "owned" }, config := {} }
        { dnsName := "new.example.com", recordType := "A",
          targets := ["1.2.3.4"], recordTTL := 3600,
          providerSpecific := [("comment", "spoof")] }
        { createResp := fun _ => some {} } := by
  exact C6_commentOverride
    { defaults := { defaultComment := "owned" }, config := {} }
    { dnsName := "new.example.com", recordType := "A",
      targets := ["1.2.3.4"], recordTTL := 3600,
      providerSpecific := [("comment", "spoof")] }
    { createResp := fun _ => some {} }

/-- A successful encodeTargets run produces one record per target, in target
order. -/
lemma encodeTargets_ok (ep : Endpoint) :
    ∀ (ts : List String) (records : List DNSRecord),
      encodeTargets ep ts = .ok records →
      records.length = ts.length ∧
      ∀ j (hj : j < ts.length) (hr : j < records.length),
        encodeRecord ep (ts.get ⟨j, hj⟩) = .ok (records.get ⟨j, hr⟩) := by
  intro ts
  induction ts with
  | nil =>
    intro records h
    simp only [encodeTargets] at h
    cases h
    exact ⟨rfl, fun j hj => absurd hj (by simp)⟩
  | cons target rest ih =>
    intro records h
    unfold encodeTargets at h
    cases her : encodeRecord ep target with
    | error e =>
      rw [her] at h
      cases h
    | ok record =>
      rw [her] at h
      cases hrest : encodeTargets ep rest with
      | error e =>
        rw [hrest] at h
        cases h
      | ok rs =>
        rw [hrest] at h
        cases h
        obtain ⟨hlen, hget⟩ := ih rs hrest
        refine ⟨by simp [hlen], ?_⟩
        intro j hj hr
        match j with
        | 0 => exact her
        | j + 1 => exact hget j (by simpa using hj) (by simpa using hr)

/-- createLoop with the first failure at offset k: the calls are exactly the
first k successful payloads plus the failing one, the created records are
exactly the k responses, and the loop errors out. -/
lemma createLoop_fail (env : CreateEnv) :
    ∀ (records : List DNSRecord) (i k : Nat), k < records.length →
      (∀ j, j < k → (env.createResp (i + j)).isSome) →
      env.createResp (i + k) = none →
      (createLoop env records i).trace =
        (records.take (k + 1)).map ApiCall.create ∧
      (createLoop env records i).err.isSome ∧
      (createLoop env records i).created.length = k ∧
      (∀ j, (createLoop env records i).created.get? j =
        if j < k then env.createResp (i + j) else none) := by
  intro records
  induction records with
  | nil =>
    intro i k hk
    simp at hk
  | cons record rest ih =>
    intro i k hk hsucc hfail
    match k with
    | 0 =>
      have hfail0 : env.createResp i = none := by simpa using hfail
      refine ⟨?_, ?_, ?_, ?_⟩ <;> simp [createLoop, hfail0]
    | k + 1 =>
      have h0 : (env.createResp i).isSome := by
        have := hsucc 0 (by omega)
        simpa using this
      obtain ⟨createdRecord, hcr⟩ := Option.isSome_iff_exists.mp h0
      have hsucc2 : ∀ j, j < k → (env.createResp (i + 1 + j)).isSome := by
        intro j hj
        have h := hsucc (j + 1) (by omega)
        have harith : i + (j + 1) = i + 1 + j := by omega
        rwa [harith] at h
      have hfail2 : env.createResp (i + 1 + k) = none := by
        have harith : i + (k + 1) = i + 1 + k := by omega
        rwa [harith] at hfail
      obtain ⟨htr, herr, hlen, hget⟩ := ih (i + 1) k (by simpa using hk) hsucc2 hfail2
      refine ⟨?_, ?_, ?_, ?_⟩
      · simp only [createLoop, hcr]
        simp only [List.take_succ_cons, List.map_cons]
        rw [htr]
      · simp only [createLoop, hcr]
        simpa using herr
      · simp only [createLoop, hcr]
        simpa using hlen
      · intro j
        simp only [createLoop, hcr]
        match j with
        | 0 =>
          simp [hcr]
        | j + 1 =>
          have hj := hget j
          simp only [List.get?_cons_succ]
          rw [hj]
          by_cases hjk : j < k
          · have harith : i + 1 + j = i + (j + 1) := by omega
            simp [hjk, harith, Nat.succ_lt_succ_iff]
          · simp [hjk, Nat.succ_lt_succ_iff]

/-- C3: with the first create failure at index k (zero-based), the pipeline
issues exactly the first k+1 creates in target order, returns exactly the k
records created before the failure together with an error, and issues no
delete (rollback) calls. -/
theorem C3_partialCreateStops (c : MikrotikApiClient) (ep : Endpoint)
    (env : CreateEnv) (records : List DNSRecord) (k : Nat)
    (hrec : NewDNSRecords ep = .ok records)
    (hk : k < records.length)
    (hsucc : ∀ j, j < k → (env.createResp j).isSome)
    (hfail : env.createResp k = none) :
    (CreateDNSRecords c ep env).err.isSome ∧
    (CreateDNSRecords c ep env).trace =
      ((records.map (fun record =>
        { record with comment := c.defaults.defaultComment })).take (k + 1)).map
        ApiCall.create ∧
    (CreateDNSRecords c ep env).created.length = k ∧
    (∀ j, (CreateDNSRecords c ep env).created.get? j =
      if j < k then env.createResp j else none) ∧
    (∀ id, ApiCall.del id ∉ (CreateDNSRecords c ep env).trace) ∧
    records.length = ep.targets.length ∧
    (∀ j (hj : j < ep.targets.length) (hr : j < records.length),
      encodeRecord ep (ep.targets.get ⟨j, hj⟩) = .ok (records.get ⟨j, hr⟩)) := by
  have hunf : CreateDNSRecords c ep env =
      createLoop env (records.map (fun record =>
        { record with comment := c.defaults.defaultComment })) 0 := by
    unfold CreateDNSRecords
    rw [hrec]
  have hk2 : k < (records.map (fun record =>
      { record with comment := c.defaults.defaultComment })).length := by
    simpa using hk
  have hsucc2 : ∀ j, j < k → (env.createResp (0 + j)).isSome := by
    intro j hj
    simpa using hsucc j hj
  have hfail2 : env.createResp (0 + k) = none := by simpa using hfail
  obtain ⟨htr, herr, hlen, hget⟩ := createLoop_fail env
    (records.map (fun record =>
      { record with comment := c.defaults.defaultComment })) 0 k hk2 hsucc2 hfail2
  obtain ⟨hlen2, hcode⟩ := encodeTargets_ok ep ep.targets records hrec
  refine ⟨by rw [hunf]; exact herr, by rw [hunf]; exact htr,
    by rw [hunf]; exact hlen, ?_, ?_, hlen2, hcode⟩
  · intro j
    rw [hunf, hget j]
    by_cases hjk : j < k <;> simp [hjk]
  · intro id hdel
    rw [hunf, htr] at hdel
    obtain ⟨r, hr, hcall⟩ := List.mem_map.mp hdel
    cases hcall

/-- C3 witness: three targets, the second create fails: exactly the first two
payloads are sent, exactly one record is returned created, an error is
returned, and no delete call appears. -/
theorem C3_partialCreateStops_witness :
    (CreateDNSRecords
        { defaults := { defaultComment := "owned" }, config := {} }
        { dnsName := "c.example.com", recordType := "A",
          targets := ["1.1.1.1", "2.2.2.2", "3.3.3.3"] }
        { createResp := fun n => if n = 1 then none else some { id := "*5" } }).err.isSome ∧
    (CreateDNSRecords
        { defaults := { defaultComment := "owned" }, config := {} }
        { dnsName := "c.example.com", recordType := "A",
          targets := ["1.1.1.1", "2.2.2.2", "3.3.3.3"] }
        { createResp := fun n => if n = 1 then none else some { id := "*5" } }).created.length = 1 ∧
    (CreateDNSRecords
        { defaults := { defaultComment := "owned" }, config := {} }
        { dnsName := "c.example.com", recordType := "A",
          targets := ["1.1.1.1", "2.2.2.2", "3.3.3.3"] }
        { createResp := fun n => if n = 1 then none else some { id := "*5" } }).trace.length = 2 ∧
    ∀ id, ApiCall.del id ∉
      (CreateDNSRecords
        { defaults := { defaultComment := "owned" }, config := {} }
        { dnsName := "c.example.com", recordType := "A",
          targets := ["1.1.1.1", "2.2.2.2", "3.3.3.3"] }
        { createResp := fun n => if n = 1 then none else some { id := "*5" } }).trace := by
  have h := C3_partialCreateStops
    { defaults := { defaultComment := "owned" }, config := {} }
    { dnsName := "c.example.com", recordType := "A",
      targets := ["1.1.1.1", "2.2.2.2", "3.3.3.3"] }
    { createResp := fun n => if n = 1 then none else some { id := "*5" } }
    [{ name := "c.example.com", type := "A", address := "1.1.1.1", ttl := "0s" },
     { name := "c.example.com", type := "A", address := "2.2.2.2", ttl := "0s" },
     { name := "c.example.com", type := "A", address := "3.3.3.3", ttl := "0s" }]
    1 (by rfl) (by decide)
    (by
      intro j hj
      have hj0 : j = 0 := by omega
      subst hj0
      rfl)
    (by rfl)
  refine ⟨h.1, h.2.2.1, ?_, h.2.2.2.2.1⟩
  rw [h.2.1]
  rfl

end Mikrotik
